import Mathlib

set_option autoImplicit false
set_option linter.unusedVariables false
set_option linter.unnecessarySeqFocus false

namespace SynergosRest

/-
Shallow embedding of the orchestration core of the synergos_rest repository:
the feature-alignment drift guard, the dual-mode job dispatcher, the grid
statistics poller, the experiment-tracking bridge and the hyperparameter
search coordinator. Definitions are translated from the Python sources under
rest_rpc/; record-store primitives (an external collaborator of the core) are
modelled as association lists, and repository helpers that are not part of the
provided sources are modelled from the specification where noted.
-/

/-! ## Feature alignment data model (spec section 3, AlignmentRecord) -/

/-- Ordered feature-space and label-space index lists for one phase. -/
structure XYIdx where
  X : List Int
  y : List Int
  deriving DecidableEq, Repr

/-- Per-participant spacer indices covering the three phases of an
AlignmentRecord. -/
structure Alignment where
  train : XYIdx
  evaluate : XYIdx
  predict : XYIdx
  deriving DecidableEq, Repr

/-- Archived AlignmentRecord details per participant id for a fixed
collaboration and project. A read returns the stored spacer index details
(record-store reads and key stripping are modelled as a plain lookup). -/
abbrev AlignArchive := String → Option Alignment

/-- Embedding of the per-participant spacer loop of execute_prediction_job
(rest_rpc/evaluation/predictions.py, lines 202-271). The input list is the
spacer collection in its iteration order. Each non-triggering participant is
compared against the archive; a mismatch raises the 403 drift abort, which
stops the loop. The triggering participant is written back unconditionally.
The result is the list of committed AlignmentRecord writes, in order, paired
with whether the loop aborted with the drift error. -/
def execute_prediction_job_spacer_loop (participant_id : String)
    (archive : AlignArchive) :
    List (String × Alignment) → List (String × Alignment) × Bool
  | [] => ([], false)
  | (p_id, spacer_idxs) :: rest =>
    if p_id ≠ participant_id then
      if archive p_id ≠ some spacer_idxs then
        ([], true)
      else
        execute_prediction_job_spacer_loop participant_id archive rest
    else
      let next := execute_prediction_job_spacer_loop participant_id archive rest
      ((p_id, spacer_idxs) :: next.1, next.2)

/-- Concrete alignment value used in the C1 scenario. -/
def c1AlignA : Alignment := ⟨⟨[0, 1], [0]⟩, ⟨[0, 1], [0]⟩, ⟨[0, 1], [0]⟩⟩

/-- Concrete alignment recomputed for the non-triggering participant in the
C1 scenario; it differs from the archived value by one index. -/
def c1AlignB : Alignment := ⟨⟨[0, 2], [0]⟩, ⟨[0, 1], [0]⟩, ⟨[0, 1], [0]⟩⟩

/-- Archive holding the pre-drift alignment for the non-triggering
participant of the C1 scenario. -/
def c1Archive : AlignArchive := fun p =>
  if p = "party_2" then some c1AlignA else none

/-- C1 counterexample: with the triggering participant party_1 iterated
before the drifting participant party_2, the operation aborts with the drift
error, yet one AlignmentRecord write (the unconditional write-back for
party_1) has already been committed, refuting the zero-writes-on-rejection
claim for this iteration order. -/
theorem C1_counterexample :
    (execute_prediction_job_spacer_loop "party_1" c1Archive
        [("party_1", c1AlignA), ("party_2", c1AlignB)]).2 = true ∧
    (execute_prediction_job_spacer_loop "party_1" c1Archive
        [("party_1", c1AlignA), ("party_2", c1AlignB)]).1 ≠ [] := by
  decide

/-- C1 (amended): when the spacer loop aborts with the drift error, every
AlignmentRecord write committed before the abort is a write-back for the
triggering participant; no other participant record is ever written in the
rejected cycle. -/
theorem C1_drift_abort_writes_only_triggering (participant_id : String)
    (archive : AlignArchive) (spacers : List (String × Alignment))
    (h : (execute_prediction_job_spacer_loop participant_id archive spacers).2
        = true) :
    ∀ w ∈ (execute_prediction_job_spacer_loop participant_id archive
        spacers).1, w.1 = participant_id := by
  induction spacers with
  | nil => simp [execute_prediction_job_spacer_loop] at h
  | cons e rest ih =>
    obtain ⟨p_id, spacer_idxs⟩ := e
    by_cases hp : p_id ≠ participant_id
    · by_cases hd : archive p_id ≠ some spacer_idxs
      · simp [execute_prediction_job_spacer_loop, hp, hd]
      · simp only [execute_prediction_job_spacer_loop, if_pos hp,
          if_neg hd] at h ⊢
        exact ih h
    · simp only [execute_prediction_job_spacer_loop, if_neg hp] at h ⊢
      intro w hw
      rcases List.mem_cons.mp hw with hw | hw
      · rw [hw]
        simpa using not_not.mp hp
      · exact ih h w hw

/-- Witness for the amended C1 theorem at the concrete drift scenario. -/
theorem C1_drift_abort_writes_only_triggering_witness :
    ((execute_prediction_job_spacer_loop "party_1" c1Archive
        [("party_1", c1AlignA), ("party_2", c1AlignB)]).2 = true) ∧
    (∀ w ∈ (execute_prediction_job_spacer_loop "party_1" c1Archive
        [("party_1", c1AlignA), ("party_2", c1AlignB)]).1,
        w.1 = "party_1") :=
  ⟨by decide,
    C1_drift_abort_writes_only_triggering "party_1" c1Archive
      [("party_1", c1AlignA), ("party_2", c1AlignB)] (by decide)⟩

/-! ## Python float semantics for the metric aggregation (C2) -/

/-- Python float value: either a rational magnitude or the IEEE NaN marker. -/
inductive PyFloat where
  | nan : PyFloat
  | val : ℚ → PyFloat
  deriving DecidableEq, Repr

/-- Python expression max(stat, 0): the builtin keeps the first argument and
switches to the second only when the comparison 0 > stat succeeds; every
comparison against NaN is false, so max of NaN and 0 evaluates to NaN. -/
def pymax_zero : PyFloat → PyFloat
  | .nan => .nan
  | .val q => if 0 > q then .val 0 else .val q

/-- Python addition on floats: NaN is absorbing. -/
def pyadd : PyFloat → PyFloat → PyFloat
  | .nan, _ => .nan
  | .val _, .nan => .nan
  | .val a, .val b => .val (a + b)

/-- Python builtin sum over a float list, starting from the integer 0. -/
def pysum (l : List PyFloat) : PyFloat := l.foldl pyadd (.val 0)

/-- Python division of a float by a positive list length. -/
def pydiv_len (x : PyFloat) (n : Nat) : PyFloat :=
  match x with
  | .nan => .nan
  | .val q => .val (q / n)

/-- Lambda process_nans of run_distributed_federated_cycle
(rest_rpc/training/core/hypertuners/tune_driver_script.py, line 175). -/
def process_nans (x : List PyFloat) : List PyFloat := x.map pymax_zero

/-- Lambda calculate_avg_stats of run_distributed_federated_cycle (line 176):
the average of a list, with the empty list averaging to 0. -/
def calculate_avg_stats (x : List PyFloat) : PyFloat :=
  if x = [] then .val 0 else pydiv_len (pysum x) x.length

/-- Value reported for one metric by run_distributed_federated_cycle
(lines 177-183): clamp each participant list with process_nans, average it,
clamp the participant averages, then average across participants. -/
def avg_statistics_value (metric_collection : List (List PyFloat)) : PyFloat :=
  calculate_avg_stats (process_nans (metric_collection.map
    (fun p_metrics => calculate_avg_stats (process_nans p_metrics))))

/-- Reference clamp from the specification wording: replace every negative or
NaN element by zero. -/
def clamp_spec : PyFloat → ℚ
  | .nan => 0
  | .val q => if q < 0 then 0 else q

/-- Rational average with the empty list averaging to 0, as in the
specification wording of the aggregation. -/
def avg_spec (x : List ℚ) : ℚ := if x = [] then 0 else x.sum / x.length

/-- Reference aggregation defined from the specification wording: clamp
negative and NaN elements to zero, average within each participant list,
clamp negative participant averages to zero, then average across
participants. -/
def avg_statistics_spec (metric_collection : List (List PyFloat)) : ℚ :=
  avg_spec (metric_collection.map (fun p_metrics =>
    let a := avg_spec (p_metrics.map clamp_spec)
    if a < 0 then 0 else a))

/-- C2 failing input: a single participant whose metric list holds one NaN
measurement. The code value is NaN, because max(NaN, 0) keeps NaN and NaN
propagates through sum and division, while the reference aggregation of the
claim reports 0; so a NaN measurement does propagate into the reported
mean, contradicting the claim and the intent of the process_nans lambda. -/
theorem C2_nan_propagates :
    avg_statistics_value [[PyFloat.nan]] = PyFloat.nan ∧
    avg_statistics_spec [[PyFloat.nan]] = 0 ∧
    avg_statistics_value [[PyFloat.nan]] ≠
      PyFloat.val (avg_statistics_spec [[PyFloat.nan]]) := by
  have h1 : avg_statistics_value [[PyFloat.nan]] = PyFloat.nan := rfl
  have h2 : avg_statistics_spec [[PyFloat.nan]] = 0 := by
    simp [avg_statistics_spec, avg_spec, clamp_spec]
  refine ⟨h1, h2, ?_⟩
  rw [h1]
  exact fun h => PyFloat.noConfusion h

/-! ## Trial resource accounting (C4) -/

/-- Per-trial resource claim passed to the tuning library. -/
structure TrialResources where
  cpu : ℚ
  gpu : ℚ
  deriving DecidableEq, Repr

/-- Embedding of RayTuneTuner._calculate_resources
(rest_rpc/training/core/hypertuners/tune_interface.py, lines 159-196):
the static core budget divided by the max_concurrent argument, with zero
GPUs. -/
def calculate_resources (cores_used : ℚ) (max_concurrent : Nat) :
    TrialResources :=
  { cpu := cores_used / max_concurrent, gpu := 0 }

/-- Embedding of the call site in RayTuneTuner.tune (line 428): the method
passes max_trial_num, not trial_concurrency, into _calculate_resources. -/
def tune_configured_resources (cores_used : ℚ)
    (trial_concurrency max_trial_num : Nat) : TrialResources :=
  calculate_resources cores_used max_trial_num

/-- C4 failing input: with a core budget of 8, a requested trial concurrency
of 2 and a trial cap of 10, the code claims 8 / 10 CPUs per trial instead of
the 8 / 2 demanded by the claim, while the GPU claim is 0 as stated. -/
theorem C4_resources_divided_by_trial_cap :
    tune_configured_resources 8 2 10 = { cpu := 4 / 5, gpu := 0 } ∧
    (tune_configured_resources 8 2 10).cpu ≠ 8 / 2 ∧
    (tune_configured_resources 8 2 10).gpu = 0 := by
  have hval : tune_configured_resources 8 2 10 =
      { cpu := 8 / ((10 : Nat) : ℚ), gpu := 0 } := rfl
  rw [hval]
  refine ⟨?_, ?_, rfl⟩
  · simp only [TrialResources.mk.injEq]
    norm_num
  · show (8 : ℚ) / ((10 : Nat) : ℚ) ≠ 8 / 2
    norm_num

/-! ## Dual-mode job dispatcher (C7, C8) -/

/-- Observable side effects of a dispatch handler: queue connection, message
publication, queue disconnection, and synchronous in-process job execution. -/
inductive DispatchEvent where
  | connect (host : String) (port : Nat)
  | publish (process : String) (keys : List String)
  | disconnect
  | execJob (keys : List String)
  deriving DecidableEq, Repr

/-- Outcome of a dispatch handler: an HTTP success or an abort code. -/
inductive PostOutcome where
  | success (code : Nat)
  | abort (code : Nat)
  deriving DecidableEq, Repr

/-- Message-queue connection information of a collaboration record: the mq
entry with its host and main port. -/
structure MQInfo where
  host : String
  mainPort : Nat
  deriving DecidableEq, Repr

/-- Collaboration record as consumed by the dispatch handlers: the
message-queue connection information may be absent, in which case the
subscript access raises KeyError. -/
structure CollaborationRecord where
  mq : Option MQInfo
  deriving DecidableEq, Repr

/-- Embedding of Alignments.post (rest_rpc/training/alignments.py, lines
255-341). In cluster mode the handler reads the queue endpoint from the
collaboration record (KeyError on a missing mq entry is caught and turned
into a 403 abort before any connection is made), connects, publishes the
single preprocess message, and disconnects. In standalone mode it runs
execute_alignment_job synchronously and archives the outputs. -/
def alignments_post (is_cluster : Bool) (collab : CollaborationRecord)
    (combination_key : List String) : List DispatchEvent × PostOutcome :=
  if is_cluster then
    match collab.mq with
    | none => ([], .abort 403)
    | some info =>
      ([.connect info.host info.mainPort,
        .publish "preprocess" combination_key,
        .disconnect], .success 201)
  else
    ([.execJob combination_key], .success 201)

/-- Embedding of Validations.post (rest_rpc/evaluation/validations.py, lines
296-457). In cluster mode the handler reads the queue endpoint (a missing mq
entry raises KeyError, caught as a 403 abort), connects, publishes one
validate message per federated combination, and disconnects. In standalone
mode it runs execute_validation_job synchronously for each combination. -/
def validations_post (is_cluster : Bool) (collab : CollaborationRecord)
    (valid_combinations : List (List String)) :
    List DispatchEvent × PostOutcome :=
  if is_cluster then
    match collab.mq with
    | none => ([], .abort 403)
    | some info =>
      (DispatchEvent.connect info.host info.mainPort ::
        (valid_combinations.map (fun k => DispatchEvent.publish "validate" k)
          ++ [DispatchEvent.disconnect]), .success 200)
  else
    (valid_combinations.map (fun k => DispatchEvent.execJob k), .success 200)

/-- Number of synchronous in-process executions in a trace. -/
def countExec : List DispatchEvent → Nat
  | [] => 0
  | .execJob _ :: rest => countExec rest + 1
  | _ :: rest => countExec rest

/-- Number of queue connections in a trace. -/
def countConnect : List DispatchEvent → Nat
  | [] => 0
  | .connect _ _ :: rest => countConnect rest + 1
  | _ :: rest => countConnect rest

/-- Number of queue publications in a trace. -/
def countPublish : List DispatchEvent → Nat
  | [] => 0
  | .publish _ _ :: rest => countPublish rest + 1
  | _ :: rest => countPublish rest

/-- Publish-only traces contain no synchronous execution. -/
theorem countExec_publish_map (combos : List (List String)) (p : String) :
    countExec (combos.map (fun k => DispatchEvent.publish p k)) = 0 := by
  induction combos with
  | nil => rfl
  | cons k rest ih => simpa [countExec] using ih

/-- Execution-only traces contain no queue connection. -/
theorem countConnect_exec_map (combos : List (List String)) :
    countConnect (combos.map (fun k => DispatchEvent.execJob k)) = 0 := by
  induction combos with
  | nil => rfl
  | cons k rest ih => simpa [countConnect] using ih

/-- C7: dispatch mode dichotomy. Cluster-mode handlers never invoke the
synchronous in-process execution function; standalone-mode handlers never
open a queue connection, for the alignment and validation resources alike. -/
theorem C7_dispatch_mode_dichotomy (collab : CollaborationRecord)
    (combination_key : List String) (valid_combinations : List (List String)) :
    countExec (alignments_post true collab combination_key).1 = 0 ∧
    countConnect (alignments_post false collab combination_key).1 = 0 ∧
    countExec (validations_post true collab valid_combinations).1 = 0 ∧
    countConnect (validations_post false collab valid_combinations).1 = 0 := by
  refine ⟨?_, rfl, ?_, ?_⟩
  · cases h : collab.mq <;> simp [alignments_post, h, countExec]
  · cases h : collab.mq with
    | none => simp [validations_post, h, countExec]
    | some info =>
      simp only [validations_post, if_pos, h]
      show countExec (DispatchEvent.connect info.host info.mainPort :: _) = 0
      have hsplit :
          ∀ l r : List DispatchEvent, countExec (l ++ r) =
            countExec l + countExec r := by
        intro l r
        induction l with
        | nil => simp [countExec]
        | cons e rest ih => cases e <;> simp [countExec, ih] <;> omega
      simp [countExec, hsplit, countExec_publish_map]
  · simp [validations_post, countConnect_exec_map]

/-- C8: a cluster-mode alignment request whose collaboration record lacks the
message-queue connection information aborts with the 403 configuration error
and publishes nothing: the event trace is empty, so no queue message and no
partial dispatch occur. -/
theorem C8_missing_queue_is_fatal (combination_key : List String) :
    alignments_post true { mq := none } combination_key =
      ([], PostOutcome.abort 403) ∧
    countPublish (alignments_post true { mq := none } combination_key).1 = 0 :=
  ⟨rfl, rfl⟩

/-! ## Hyperparameter-search completion barrier (C9) -/

/-- Validation statistics archived for one participant, as read by the
polling loop: one list per supported metric under the evaluate phase. -/
structure ValStats where
  accuracy : List PyFloat
  roc_auc_score : List PyFloat
  pr_auc_score : List PyFloat
  f_score : List PyFloat
  deriving DecidableEq, Repr

/-- Per-metric collections grouped across participants, mirroring the
grouped_statistics dictionary keyed by the four supported metrics. -/
structure GroupedStats where
  accuracy : List (List PyFloat)
  roc_auc_score : List (List PyFloat)
  pr_auc_score : List (List PyFloat)
  f_score : List (List PyFloat)
  deriving DecidableEq, Repr

/-- Culmination step of the polling loop (tune_driver_script.py, lines
163-168): append the participant metrics to every supported metric
collection. -/
def collect_metrics (g : GroupedStats) (s : ValStats) : GroupedStats :=
  { accuracy := g.accuracy ++ [s.accuracy],
    roc_auc_score := g.roc_auc_score ++ [s.roc_auc_score],
    pr_auc_score := g.pr_auc_score ++ [s.pr_auc_score],
    f_score := g.f_score ++ [s.f_score] }

/-- Embedding of the completion-barrier loop of
run_distributed_federated_cycle (tune_driver_script.py, lines 150-172): pop
the first queued participant, read its archived validation record, collect
its metrics when present, and re-queue it at the back when absent. The
archive is read through the given map; the fuel argument bounds the number
of loop iterations evaluated, with none meaning the loop was still running
when the fuel ran out. -/
def poll_validation_archive (archive : String → Option ValStats) :
    Nat → List String → GroupedStats → Option GroupedStats
  | 0, _, _ => none
  | _ + 1, [], g => some g
  | fuel + 1, participant_id :: rest, g =>
    match archive participant_id with
    | some inference_stats =>
      poll_validation_archive archive fuel rest (collect_metrics g inference_stats)
    | none => poll_validation_archive archive fuel (rest ++ [participant_id]) g

/-- Metric report assembled after the barrier (lines 174-185): the averaged
statistics per supported metric, available only when the polling loop has
exited. -/
def run_cycle_report (archive : String → Option ValStats) (fuel : Nat)
    (participants : List String) : Option (PyFloat × PyFloat × PyFloat × PyFloat) :=
  (poll_validation_archive archive fuel participants ⟨[], [], [], []⟩).map
    (fun g => (avg_statistics_value g.accuracy,
      avg_statistics_value g.roc_auc_score,
      avg_statistics_value g.pr_auc_score,
      avg_statistics_value g.f_score))

/-- Exit of the polling loop requires an archived record for every queued
participant. -/
theorem poll_validation_archive_sound (archive : String → Option ValStats) :
    ∀ (fuel : Nat) (ps : List String) (g0 g : GroupedStats),
      poll_validation_archive archive fuel ps g0 = some g →
      ∀ p ∈ ps, (archive p).isSome = true := by
  intro fuel
  induction fuel with
  | zero => intro ps g0 g h; exact absurd h (by simp [poll_validation_archive])
  | succ n ih =>
    intro ps g0 g h p hp
    cases ps with
    | nil => cases hp
    | cons q rest =>
      rcases List.mem_cons.mp hp with hq | hq
      · subst hq
        cases harch : archive p with
        | none =>
          simp only [poll_validation_archive, harch] at h
          exact harch ▸ ih _ _ _ h p (by simp)
        | some s => simp [harch]
      · cases harch : archive q with
        | none =>
          simp only [poll_validation_archive, harch] at h
          exact ih _ _ _ h p (by simp [hq])
        | some s =>
          simp only [poll_validation_archive, harch] at h
          exact ih _ _ _ h p hq

/-- C9: completion barrier. Whenever run_distributed_federated_cycle reaches
the report step, in other words whenever the polling loop has exited and the
averaged metrics exist, a validation record was present in the archive for
every participant registered under the project; a participant whose record
is absent is re-queued instead of being skipped. -/
theorem C9_completion_barrier (archive : String → Option ValStats)
    (fuel : Nat) (participants : List String)
    (h : (run_cycle_report archive fuel participants).isSome = true) :
    ∀ p ∈ participants, (archive p).isSome = true := by
  have hpoll : (poll_validation_archive archive fuel participants
      ⟨[], [], [], []⟩).isSome = true := by
    cases hp : poll_validation_archive archive fuel participants ⟨[], [], [], []⟩ with
    | none => rw [run_cycle_report, hp] at h; exact absurd h (by simp)
    | some g => rfl
  cases hp : poll_validation_archive archive fuel participants ⟨[], [], [], []⟩ with
  | none => rw [hp] at hpoll; exact absurd hpoll (by simp)
  | some g => exact poll_validation_archive_sound archive fuel participants _ g hp

/-- Concrete archive for the C9 witness: only party_1 has archived
validation statistics. -/
def c9Archive : String → Option ValStats := fun p =>
  if p = "party_1" then some ⟨[.val 1], [.val 1], [.val 1], [.val 1]⟩ else none

/-- Witness for the completion barrier at a concrete single-participant
grid whose record is archived. -/
theorem C9_completion_barrier_witness :
    ((run_cycle_report c9Archive 2 ["party_1"]).isSome = true) ∧
    (∀ p ∈ ["party_1"], (c9Archive p).isSome = true) :=
  ⟨by decide, C9_completion_barrier c9Archive 2 ["party_1"] (by decide)⟩

/-! ## Combination submission fault of the search coordinator (C10) -/

/-- Python runtime errors relevant to the submission expression. -/
inductive PyError where
  | attributeError (typeName attrName : String)
  | typeError (message : String)
  deriving DecidableEq, Repr

/-- Named attributes that a dict_items view object resolves. -/
inductive ItemsViewAttr where
  | isdisjoint
  | mapping
  deriving DecidableEq, Repr

/-- Attribute lookup on the view object returned by the items method of a
Python dict: beyond iteration, length and containment, the view resolves
only the isdisjoint method and the mapping proxy; any other attribute name,
pop included, raises AttributeError. -/
def dict_items_getattr : String → Except PyError ItemsViewAttr
  | "isdisjoint" => .ok .isdisjoint
  | "mapping" => .ok .mapping
  | attr => .error (.attributeError "dict_items" attr)

/-- Queue submission recorded by the train producer. -/
inductive ProducerEvent where
  | processSubmitted (process : String) (keys : List String)
  deriving DecidableEq, Repr

/-- Modelled from the spec: RPCFormatter.enumerate_federated_conbinations is
not part of the provided sources; per the Combination Enumerator interface
it returns a standard mapping of combination key to phase parameters, here
given as the combos argument. This embeds the submission prelude of
run_distributed_federated_cycle (tune_driver_script.py, lines 112-127): the
mapping has its items view taken and pop is looked up on that view; the
lookup raises AttributeError, so the producer.process submission that
follows is never reached and the recorded producer events stay empty. Were
the attribute resolved, the call with no arguments would raise TypeError;
those branches are present only to make the dispatch total. -/
def run_distributed_federated_cycle_submit {α : Type}
    (combos : List (List String × α)) :
    Except PyError (List String × α) × List ProducerEvent :=
  match dict_items_getattr "pop" with
  | .error e => (.error e, [])
  | .ok .isdisjoint =>
    (.error (.typeError "isdisjoint expects exactly one argument"), [])
  | .ok .mapping =>
    (.error (.typeError "mappingproxy object is not callable"), [])

/-- C10: for every enumerated combination mapping, the submission prelude of
run_distributed_federated_cycle raises AttributeError at the expression
taking pop on the items view, and no trial job is submitted to the
producer. -/
theorem C10_items_pop_attribute_error {α : Type}
    (combos : List (List String × α)) :
    run_distributed_federated_cycle_submit combos =
      (.error (.attributeError "dict_items" "pop"), []) := rfl

/-! ## Experiment-tracking bridge: multi-destination logging (C3) -/

/-- Sub-operations of the per-combination logging sequence of MLFlogger.log:
ensure experiment, ensure run, replay losses, log performance, log
artifacts. -/
inductive MLFOp where
  | initExperiment
  | initRun
  | logLosses
  | logPerformance
  | logArtifacts
  deriving DecidableEq, Repr

/-- One attempted tracking-service call: the operation, the tracking URI the
iteration is logging to (set globally by initialise_mlflow_experiment via
set_tracking_uri), and the combination key. -/
structure MLFCall where
  op : MLFOp
  uri : String
  key : List String
  deriving DecidableEq, Repr

/-- Order of the five sub-operations inside one loop iteration of
MLFlogger.log (rest_rpc/evaluation/core/utils.py, lines 860-895). -/
def mlf_ops : List MLFOp := [.initExperiment, .initRun, .logLosses,
  .logPerformance, .logArtifacts]

/-- Runs the five-step sequence for one combination against one URI. Each
call is attempted in order; the fails oracle marks the calls that raise. A
raised error propagates immediately (there is no handler in the source), so
the remaining steps are not attempted. Returns the attempted calls and
whether the sequence completed. -/
def mlf_run_ops (fails : String → MLFOp → Bool) (uri : String)
    (key : List String) : List MLFOp → List MLFCall × Bool
  | [] => ([], true)
  | op :: rest =>
    if fails uri op then ([⟨op, uri, key⟩], false)
    else
      let next := mlf_run_ops fails uri key rest
      (⟨op, uri, key⟩ :: next.1, next.2)

/-- Inner loop of MLFlogger.log: the full sequence for every accumulated
combination against one URI, aborting on the first raised error. -/
def mlf_log_combinations (fails : String → MLFOp → Bool) (uri : String) :
    List (List String) → List MLFCall × Bool
  | [] => ([], true)
  | key :: rest =>
    let first := mlf_run_ops fails uri key mlf_ops
    if first.2 then
      let next := mlf_log_combinations fails uri rest
      (first.1 ++ next.1, next.2)
    else (first.1, false)

/-- Outer loop of MLFlogger.log over the tracking URIs, aborting on the
first raised error because the loop body has no exception handler. -/
def mlf_log_uris (fails : String → MLFOp → Bool)
    (accumulations : List (List String)) :
    List String → List MLFCall × Bool
  | [] => ([], true)
  | uri :: rest =>
    let first := mlf_log_combinations fails uri accumulations
    if first.2 then
      let next := mlf_log_uris fails accumulations rest
      (first.1 ++ next.1, next.2)
    else (first.1, false)

/-- Embedding of MLFlogger.log (rest_rpc/evaluation/core/utils.py, lines
821-900): the tracking URIs are the local cache directory followed by the
remote URI when one is configured; the whole ensure/log/artifact sequence is
run per URI per accumulated combination. -/
def mlflogger_log (mlflow_dir : String) (remote_uri : Option String)
    (fails : String → MLFOp → Bool)
    (accumulations : List (List String)) : List MLFCall × Bool :=
  let tracking_uris := match remote_uri with
    | some r => [mlflow_dir, r]
    | none => [mlflow_dir]
  mlf_log_uris fails accumulations tracking_uris

/-- Combination key used in the C3 scenarios. -/
def c3Key : List String := ["collab_1", "project_1", "expt_1", "run_1"]

/-- Failure oracle of the C3 counterexample: every call against the local
cache directory raises. -/
def c3Fails : String → MLFOp → Bool := fun uri _ => uri = "mlruns"

/-- C3 counterexample: with both a local and a remote URI configured, a
raised error while logging to the local destination ends MLFlogger.log
before any call against the remote destination is attempted; the trace
holds exactly the one failed local call, refuting the claimed independence
of the two destinations. -/
theorem C3_counterexample :
    (mlflogger_log "mlruns" (some "http://mlops:5500") c3Fails [c3Key]).2
        = false ∧
    (mlflogger_log "mlruns" (some "http://mlops:5500") c3Fails [c3Key]).1 =
      [⟨MLFOp.initExperiment, "mlruns", c3Key⟩] ∧
    ((mlflogger_log "mlruns" (some "http://mlops:5500") c3Fails [c3Key]).1.countP
        (fun c => c.uri == "http://mlops:5500")) = 0 := by
  refine ⟨rfl, rfl, rfl⟩

/-- Error-free sequence for one combination: all five steps run. -/
theorem mlf_run_ops_no_fail (fails : String → MLFOp → Bool) (uri : String)
    (key : List String) (h : ∀ u op, fails u op = false) :
    ∀ ops, mlf_run_ops fails uri key ops =
      (ops.map (fun op => ⟨op, uri, key⟩), true) := by
  intro ops
  induction ops with
  | nil => rfl
  | cons op rest ih => simp [mlf_run_ops, h, ih]

/-- Error-free inner loop: the full sequence for every combination. -/
theorem mlf_log_combinations_no_fail (fails : String → MLFOp → Bool)
    (uri : String) (h : ∀ u op, fails u op = false) :
    ∀ accs, mlf_log_combinations fails uri accs =
      (accs.flatMap (fun key => mlf_ops.map (fun op => ⟨op, uri, key⟩)), true) := by
  intro accs
  induction accs with
  | nil => rfl
  | cons key rest ih =>
    simp [mlf_log_combinations, mlf_run_ops_no_fail fails uri key h, ih]

/-- C3 (amended): when both URIs are configured and no call raises, the
entire ensure/log/artifact sequence is performed once per URI, local first,
then remote; when a call raises, MLFlogger.log stops and later destinations
are not attempted, as the counterexample shows. -/
theorem C3_sequence_once_per_uri (mlflow_dir remote : String)
    (fails : String → MLFOp → Bool) (accumulations : List (List String))
    (h : ∀ u op, fails u op = false) :
    mlflogger_log mlflow_dir (some remote) fails accumulations =
      ((accumulations.flatMap
          (fun key => mlf_ops.map (fun op => ⟨op, mlflow_dir, key⟩))) ++
        (accumulations.flatMap
          (fun key => mlf_ops.map (fun op => ⟨op, remote, key⟩))),
        true) := by
  simp [mlflogger_log, mlf_log_uris,
    mlf_log_combinations_no_fail fails mlflow_dir h,
    mlf_log_combinations_no_fail fails remote h]

/-- Witness for the amended C3 theorem with an always-successful oracle. -/
theorem C3_sequence_once_per_uri_witness :
    (∀ u op, (fun (_ : String) (_ : MLFOp) => false) u op = false) ∧
    mlflogger_log "mlruns" (some "http://mlops:5500")
        (fun _ _ => false) [c3Key] =
      (([c3Key].flatMap
          (fun key => mlf_ops.map (fun op => ⟨op, "mlruns", key⟩))) ++
        ([c3Key].flatMap
          (fun key => mlf_ops.map (fun op => ⟨op, "http://mlops:5500", key⟩))),
        true) :=
  ⟨fun _ _ => rfl,
    C3_sequence_once_per_uri "mlruns" "http://mlops:5500"
      (fun _ _ => false) [c3Key] (fun _ _ => rfl)⟩

/-! ## Experiment-tracking bridge: idempotent get-or-create (C6) -/

/-- Hierarchy key of an MLFlow experiment mapping: collapsed collaboration,
project and experiment identifiers. -/
structure ExpKey where
  collab_id : String
  project_id : String
  expt_id : String
  deriving DecidableEq, Repr

/-- Stored details of a TrackingMapping: the tracking-service experiment id
and the tracking endpoint URI used. -/
structure MLFDetails where
  mlflow_id : Nat
  mlflow_uri : String
  deriving DecidableEq, Repr

/-- State crossed by initialise_mlflow_experiment: the MLFRecords store as
an association list plus the next experiment id the tracking service would
mint (mlflow.create_experiment returns a fresh id). -/
structure MLFState where
  store : List (ExpKey × MLFDetails)
  nextId : Nat
  deriving DecidableEq, Repr

/-- Record-store read: first entry under the hierarchy key. -/
def mlf_lookup : List (ExpKey × MLFDetails) → ExpKey → Option MLFDetails
  | [], _ => none
  | e :: rest, k => if e.1 = k then some e.2 else mlf_lookup rest k

/-- Record-store update: replace the stored details under an existing key,
leaving every other record untouched. -/
def mlf_update : List (ExpKey × MLFDetails) → ExpKey → MLFDetails →
    List (ExpKey × MLFDetails)
  | [], _, _ => []
  | e :: rest, k, v =>
    if e.1 = k then (k, v) :: rest else e :: mlf_update rest k v

/-- Embedding of MLFlogger.initialise_mlflow_experiment
(rest_rpc/evaluation/core/utils.py, lines 396-465): read the mapping under
the hierarchy key; when absent, mint a fresh tracking id and create the
record with the requested URI; then, when the stored URI differs from the
requested one, update only the URI field; return the stored details. -/
def initialise_mlflow_experiment (s : MLFState) (k : ExpKey)
    (tracking_uri : String) : MLFState × MLFDetails :=
  match mlf_lookup s.store k with
  | none =>
    let details : MLFDetails := ⟨s.nextId, tracking_uri⟩
    ({ store := s.store ++ [(k, details)], nextId := s.nextId + 1 }, details)
  | some d =>
    if d.mlflow_uri ≠ tracking_uri then
      let updated : MLFDetails := { d with mlflow_uri := tracking_uri }
      ({ s with store := mlf_update s.store k updated }, updated)
    else (s, d)

/-- Lookup after an append to a store missing the key. -/
theorem mlf_lookup_append_missing (store : List (ExpKey × MLFDetails))
    (k : ExpKey) (d : MLFDetails) (h : mlf_lookup store k = none) :
    mlf_lookup (store ++ [(k, d)]) k = some d := by
  induction store with
  | nil => simp [mlf_lookup]
  | cons e rest ih =>
    by_cases he : e.1 = k
    · simp [mlf_lookup, he] at h
    · simp only [mlf_lookup, if_neg he] at h
      simp only [List.cons_append, mlf_lookup, if_neg he]
      exact ih h

/-- Lookup after an update of an existing key. -/
theorem mlf_lookup_update (store : List (ExpKey × MLFDetails)) (k : ExpKey)
    (d v : MLFDetails) (h : mlf_lookup store k = some d) :
    mlf_lookup (mlf_update store k v) k = some v := by
  induction store with
  | nil => simp [mlf_lookup] at h
  | cons e rest ih =>
    by_cases he : e.1 = k
    · simp [mlf_update, he, mlf_lookup]
    · simp only [mlf_lookup, if_neg he] at h
      simp only [mlf_update, if_neg he, mlf_lookup]
      exact ih h

/-- Invariant of a single call: the returned details are stored under the
key and carry the requested URI. -/
theorem initialise_mlflow_experiment_stores (s : MLFState) (k : ExpKey)
    (u : String) :
    mlf_lookup (initialise_mlflow_experiment s k u).1.store k =
      some (initialise_mlflow_experiment s k u).2 ∧
    (initialise_mlflow_experiment s k u).2.mlflow_uri = u := by
  cases hl : mlf_lookup s.store k with
  | none =>
    have hval : initialise_mlflow_experiment s k u =
        ({ store := s.store ++ [(k, ⟨s.nextId, u⟩)], nextId := s.nextId + 1 },
          ⟨s.nextId, u⟩) := by
      simp [initialise_mlflow_experiment, hl]
    rw [hval]
    exact ⟨mlf_lookup_append_missing s.store k _ hl, rfl⟩
  | some d =>
    by_cases hu : d.mlflow_uri = u
    · have hval : initialise_mlflow_experiment s k u = (s, d) := by
        simp [initialise_mlflow_experiment, hl, hu]
      rw [hval]
      exact ⟨hl, hu⟩
    · have hval : initialise_mlflow_experiment s k u =
          ({ s with store := mlf_update s.store k { d with mlflow_uri := u } },
            { d with mlflow_uri := u }) := by
        simp [initialise_mlflow_experiment, hl, hu]
      rw [hval]
      exact ⟨mlf_lookup_update s.store k d _ hl, rfl⟩

/-- C6: tracking-bridge idempotence. A second call under the same hierarchy
key and URI returns the identical state and details, hence the same
tracking id and no second record; a subsequent call with a different URI
returns the same tracking id, stores the requested URI, rewrites the store
only at the key with only the URI field changed, and mints no new tracking
id. -/
theorem C6_tracking_bridge_idempotence (s : MLFState) (k : ExpKey)
    (u u' : String) (hne : u' ≠ u) :
    (initialise_mlflow_experiment (initialise_mlflow_experiment s k u).1 k u =
      initialise_mlflow_experiment s k u) ∧
    ((initialise_mlflow_experiment
        (initialise_mlflow_experiment s k u).1 k u').2.mlflow_id =
      (initialise_mlflow_experiment s k u).2.mlflow_id) ∧
    ((initialise_mlflow_experiment
        (initialise_mlflow_experiment s k u).1 k u').2.mlflow_uri = u') ∧
    ((initialise_mlflow_experiment
        (initialise_mlflow_experiment s k u).1 k u').1.store =
      mlf_update (initialise_mlflow_experiment s k u).1.store k
        { (initialise_mlflow_experiment s k u).2 with mlflow_uri := u' }) ∧
    ((initialise_mlflow_experiment
        (initialise_mlflow_experiment s k u).1 k u').1.nextId =
      (initialise_mlflow_experiment s k u).1.nextId) := by
  obtain ⟨hstore, huri⟩ := initialise_mlflow_experiment_stores s k u
  have hne' : u ≠ u' := Ne.symm hne
  generalize hres : initialise_mlflow_experiment s k u = res at hstore huri ⊢
  obtain ⟨s1, d1⟩ := res
  dsimp only at hstore huri ⊢
  have hsecond : initialise_mlflow_experiment s1 k u = (s1, d1) := by
    simp [initialise_mlflow_experiment, hstore, huri]
  have hthird : initialise_mlflow_experiment s1 k u' =
      ({ s1 with store := mlf_update s1.store k { d1 with mlflow_uri := u' } },
        { d1 with mlflow_uri := u' }) := by
    simp [initialise_mlflow_experiment, hstore, huri, hne']
  refine ⟨hsecond, ?_, ?_, ?_, ?_⟩
  · rw [hthird]
  · rw [hthird]
  · rw [hthird]
  · rw [hthird]

/-- Witness for the C6 theorem from the empty store with two distinct
URIs. -/
theorem C6_tracking_bridge_idempotence_witness :
    (("uri_2" : String) ≠ "uri_1") ∧
    ((initialise_mlflow_experiment
        (initialise_mlflow_experiment ⟨[], 0⟩ ⟨"c", "p", "e"⟩ "uri_1").1
        ⟨"c", "p", "e"⟩ "uri_1" =
      initialise_mlflow_experiment ⟨[], 0⟩ ⟨"c", "p", "e"⟩ "uri_1") ∧
    ((initialise_mlflow_experiment
        (initialise_mlflow_experiment ⟨[], 0⟩ ⟨"c", "p", "e"⟩ "uri_1").1
        ⟨"c", "p", "e"⟩ "uri_2").2.mlflow_id =
      (initialise_mlflow_experiment ⟨[], 0⟩ ⟨"c", "p", "e"⟩ "uri_1").2.mlflow_id) ∧
    ((initialise_mlflow_experiment
        (initialise_mlflow_experiment ⟨[], 0⟩ ⟨"c", "p", "e"⟩ "uri_1").1
        ⟨"c", "p", "e"⟩ "uri_2").2.mlflow_uri = "uri_2") ∧
    ((initialise_mlflow_experiment
        (initialise_mlflow_experiment ⟨[], 0⟩ ⟨"c", "p", "e"⟩ "uri_1").1
        ⟨"c", "p", "e"⟩ "uri_2").1.store =
      mlf_update (initialise_mlflow_experiment ⟨[], 0⟩ ⟨"c", "p", "e"⟩ "uri_1").1.store
        ⟨"c", "p", "e"⟩
        { (initialise_mlflow_experiment ⟨[], 0⟩ ⟨"c", "p", "e"⟩ "uri_1").2 with
            mlflow_uri := "uri_2" }) ∧
    ((initialise_mlflow_experiment
        (initialise_mlflow_experiment ⟨[], 0⟩ ⟨"c", "p", "e"⟩ "uri_1").1
        ⟨"c", "p", "e"⟩ "uri_2").1.nextId =
      (initialise_mlflow_experiment ⟨[], 0⟩ ⟨"c", "p", "e"⟩ "uri_1").1.nextId)) :=
  ⟨by decide,
    C6_tracking_bridge_idempotence ⟨[], 0⟩ ⟨"c", "p", "e"⟩ "uri_1" "uri_2"
      (by decide)⟩

/-! ## Statistics poller (C5) -/

/-- Modelled from the spec: the Orchestrator parse helpers
(rest_rpc/training/core/utils.py, absent from the provided sources) read the
participant identifier out of one grid entry, both when matching references
(parse_syft_info) and when keying the aggregate (parse_keys); per the spec a
GridEntry carries the participant identifier together with its network
address. -/
structure NodeInfo where
  id : String
  host : String
  deriving DecidableEq, Repr

/-- Inference object references submitted for one worker. -/
abbrev InferenceRefs := List Nat

/-- Statistics map for one phase: statistic name to value. -/
abbrev StatMap := List (String × Int)

/-- Per-phase statistics returned for one participant. -/
abbrev PhaseStats := List (String × StatMap)

/-- Network call issued to one participant by the poller. -/
inductive PollEvent where
  | call (participant_id : String)
  deriving DecidableEq, Repr

/-- Embedding of Analyser._poll_for_stats
(rest_rpc/evaluation/core/utils.py, lines 89-159): a participant with no
inference references short-circuits to an empty statistics map for every
requested phase without issuing a call; otherwise one call is posted to the
worker and the response metadata is filtered down to the requested phases.
The response oracle gives the metadata each worker returns. -/
def poll_for_stats (metas : List String) (response : String → PhaseStats)
    (node_info : NodeInfo) (inferences : InferenceRefs) :
    List PollEvent × (String × PhaseStats) :=
  if inferences = [] then
    ([], (node_info.id, metas.map (fun meta => (meta, []))))
  else
    ([.call node_info.id],
      (node_info.id,
        (response node_info.id).filter (fun ms => metas.contains ms.1)))

/-- Pair matching of Analyser._collect_all_stats (lines 188-193): worker ids
of the inference map are matched against grid entries by id equality, never
positionally. -/
def mapped_pairs (grid : List NodeInfo)
    (inferences : List (String × InferenceRefs)) :
    List (NodeInfo × InferenceRefs) :=
  inferences.flatMap (fun wi =>
    (grid.filter (fun record => record.id == wi.1)).map
      (fun record => (record, wi.2)))

/-- Python dict update: the value stored under an existing key is replaced
in place, a new key is appended at the end. -/
def dict_update : List (String × PhaseStats) → String → PhaseStats →
    List (String × PhaseStats)
  | [], k, v => [(k, v)]
  | e :: rest, k, v =>
    if e.1 = k then (k, v) :: rest else e :: dict_update rest k v

/-- Lookup in the aggregated dictionary. -/
def stats_lookup : List (String × PhaseStats) → String → Option PhaseStats
  | [], _ => none
  | e :: rest, k => if e.1 = k then some e.2 else stats_lookup rest k

/-- Embedding of Analyser._collect_all_stats (lines 188-204): poll every
matched pair and merge each polled result into the aggregate dictionary
keyed by participant id. -/
def collect_all_stats (metas : List String) (response : String → PhaseStats)
    (grid : List NodeInfo) (inferences : List (String × InferenceRefs)) :
    List PollEvent × List (String × PhaseStats) :=
  (mapped_pairs grid inferences).foldl
    (fun acc pair =>
      let polled := poll_for_stats metas response pair.1 pair.2
      (acc.1 ++ polled.1, dict_update acc.2 polled.2.1 polled.2.2))
    ([], [])

/-- Value the poller stores for a worker, as a function of its id and
references only. -/
def poll_value (metas : List String) (response : String → PhaseStats)
    (w : String) (refs : InferenceRefs) : PhaseStats :=
  if refs = [] then metas.map (fun meta => (meta, []))
  else (response w).filter (fun ms => metas.contains ms.1)

/-- Store produced by merging the polled pairs in order. -/
def store_fold (metas : List String) (response : String → PhaseStats)
    (pairs : List (NodeInfo × InferenceRefs))
    (st0 : List (String × PhaseStats)) : List (String × PhaseStats) :=
  pairs.foldl
    (fun st pr => dict_update st pr.1.id (poll_value metas response pr.1.id pr.2))
    st0

/-- Poll results decompose into the events and the keyed value. -/
theorem poll_for_stats_eq (metas : List String)
    (response : String → PhaseStats) (node_info : NodeInfo)
    (inferences : InferenceRefs) :
    poll_for_stats metas response node_info inferences =
      ((if inferences = [] then [] else [.call node_info.id]),
        (node_info.id, poll_value metas response node_info.id inferences)) := by
  by_cases h : inferences = [] <;> simp [poll_for_stats, poll_value, h]

/-- The event-store fold splits into an event flat-map and a store fold. -/
theorem collect_fold_split (metas : List String)
    (response : String → PhaseStats)
    (pairs : List (NodeInfo × InferenceRefs)) :
    ∀ (ev0 : List PollEvent) (st0 : List (String × PhaseStats)),
      pairs.foldl
        (fun acc pair =>
          let polled := poll_for_stats metas response pair.1 pair.2
          (acc.1 ++ polled.1, dict_update acc.2 polled.2.1 polled.2.2))
        (ev0, st0) =
      (ev0 ++ pairs.flatMap
          (fun pr => (poll_for_stats metas response pr.1 pr.2).1),
        store_fold metas response pairs st0) := by
  induction pairs with
  | nil => intro ev0 st0; simp [store_fold]
  | cons pr rest ih =>
    intro ev0 st0
    simp only [List.foldl_cons, List.flatMap_cons]
    rw [ih]
    simp only [store_fold, List.foldl_cons]
    simp [poll_for_stats_eq, List.append_assoc]

/-- Lookup through a dictionary update. -/
theorem stats_lookup_dict_update (st : List (String × PhaseStats))
    (k k' : String) (v : PhaseStats) :
    stats_lookup (dict_update st k v) k' =
      if k' = k then some v else stats_lookup st k' := by
  induction st with
  | nil =>
    by_cases h : k' = k
    · simp [dict_update, stats_lookup, h]
    · simp [dict_update, stats_lookup, h, Ne.symm h]
  | cons e rest ih =>
    by_cases he : e.1 = k
    · by_cases hk : k' = k
      · simp [dict_update, he, stats_lookup, hk]
      · have hk' : ¬ k = k' := fun hc => hk hc.symm
        simp [dict_update, he, stats_lookup, hk, hk']
    · by_cases hek : e.1 = k'
      · have hk : ¬ k' = k := fun hc => he (hek.trans hc)
        simp [dict_update, he, stats_lookup, hek, hk]
      · simp [dict_update, he, stats_lookup, hek, ih]

/-- Keys after a dictionary update. -/
theorem mem_keys_dict_update (st : List (String × PhaseStats))
    (k a : String) (v : PhaseStats) :
    a ∈ (dict_update st k v).map Prod.fst ↔
      a ∈ st.map Prod.fst ∨ a = k := by
  induction st with
  | nil => simp [dict_update]
  | cons e rest ih =>
    by_cases he : e.1 = k
    · rw [dict_update, if_pos he, List.map_cons, List.map_cons, he]
      simp only [List.mem_cons]
      tauto
    · rw [dict_update, if_neg he, List.map_cons, List.map_cons]
      simp only [List.mem_cons, ih]
      tauto

/-- Dictionary updates preserve key distinctness. -/
theorem nodup_keys_dict_update (st : List (String × PhaseStats))
    (k : String) (v : PhaseStats) (h : (st.map Prod.fst).Nodup) :
    ((dict_update st k v).map Prod.fst).Nodup := by
  induction st with
  | nil => simp [dict_update]
  | cons e rest ih =>
    rw [List.map_cons, List.nodup_cons] at h
    by_cases he : e.1 = k
    · rw [dict_update, if_pos he, List.map_cons, List.nodup_cons]
      exact ⟨he ▸ h.1, h.2⟩
    · rw [dict_update, if_neg he, List.map_cons, List.nodup_cons]
      refine ⟨?_, ih h.2⟩
      intro hmem
      rcases (mem_keys_dict_update rest k e.1 v).mp hmem with hm | hm
      · exact h.1 hm
      · exact he hm

/-- A store fold writing no entry under a key leaves its lookup alone. -/
theorem stats_lookup_store_fold_untouched (metas : List String)
    (response : String → PhaseStats) (w : String) :
    ∀ (pairs : List (NodeInfo × InferenceRefs))
      (st0 : List (String × PhaseStats)),
      (∀ pr ∈ pairs, pr.1.id ≠ w) →
      stats_lookup (store_fold metas response pairs st0) w =
        stats_lookup st0 w := by
  intro pairs
  induction pairs with
  | nil => intro st0 _; simp [store_fold]
  | cons pr rest ih =>
    intro st0 hnone
    rw [store_fold, List.foldl_cons]
    have hrest := ih (dict_update st0 pr.1.id
      (poll_value metas response pr.1.id pr.2))
      (fun q hq => hnone q (List.mem_cons_of_mem pr hq))
    rw [store_fold] at hrest
    rw [hrest, stats_lookup_dict_update,
      if_neg (fun hc => hnone pr (List.mem_cons_self pr rest) hc.symm)]

/-- A store fold whose writes under a key all carry the same value, with at
least one such write, resolves the lookup to that value. -/
theorem stats_lookup_store_fold_uniform (metas : List String)
    (response : String → PhaseStats) (w : String) (v : PhaseStats) :
    ∀ (pairs : List (NodeInfo × InferenceRefs))
      (st0 : List (String × PhaseStats)),
      (∀ pr ∈ pairs, pr.1.id = w →
        poll_value metas response pr.1.id pr.2 = v) →
      (∃ pr ∈ pairs, pr.1.id = w) →
      stats_lookup (store_fold metas response pairs st0) w = some v := by
  intro pairs
  induction pairs with
  | nil => intro st0 _ hex; exact absurd hex (by simp)
  | cons pr rest ih =>
    intro st0 huni hex
    rw [store_fold, List.foldl_cons]
    have hrest : ∀ q ∈ rest, q.1.id = w →
        poll_value metas response q.1.id q.2 = v :=
      fun q hq => huni q (List.mem_cons_of_mem pr hq)
    by_cases hhead : pr.1.id = w
    · by_cases hrw : ∃ q ∈ rest, q.1.id = w
      · have := ih (dict_update st0 pr.1.id
          (poll_value metas response pr.1.id pr.2)) hrest hrw
        rw [store_fold] at this
        exact this
      · push_neg at hrw
        have hfold := stats_lookup_store_fold_untouched metas response w rest
          (dict_update st0 pr.1.id (poll_value metas response pr.1.id pr.2))
          hrw
        rw [store_fold] at hfold
        rw [hfold, stats_lookup_dict_update, if_pos hhead.symm,
          huni pr (List.mem_cons_self pr rest) hhead]
    · have hex' : ∃ q ∈ rest, q.1.id = w := by
        rcases hex with ⟨q, hq, hqw⟩
        rcases List.mem_cons.mp hq with rfl | hq'
        · exact absurd hqw hhead
        · exact ⟨q, hq', hqw⟩
      have := ih (dict_update st0 pr.1.id
        (poll_value metas response pr.1.id pr.2)) hrest hex'
      rw [store_fold] at this
      exact this

/-- Keys of a store fold come from the initial store or the written ids. -/
theorem mem_keys_store_fold (metas : List String)
    (response : String → PhaseStats) (a : String) :
    ∀ (pairs : List (NodeInfo × InferenceRefs))
      (st0 : List (String × PhaseStats)),
      a ∈ (store_fold metas response pairs st0).map Prod.fst →
      a ∈ st0.map Prod.fst ∨ ∃ pr ∈ pairs, pr.1.id = a := by
  intro pairs
  induction pairs with
  | nil => intro st0 h; exact Or.inl (by simpa [store_fold] using h)
  | cons pr rest ih =>
    intro st0 h
    rw [store_fold, List.foldl_cons] at h
    have := ih (dict_update st0 pr.1.id
      (poll_value metas response pr.1.id pr.2)) (by rw [store_fold]; exact h)
    rcases this with hm | ⟨q, hq, hqa⟩
    · rcases (mem_keys_dict_update st0 pr.1.id a _).mp hm with hm' | hm'
      · exact Or.inl hm'
      · exact Or.inr ⟨pr, List.mem_cons_self pr rest, hm'.symm⟩
    · exact Or.inr ⟨q, List.mem_cons_of_mem pr hq, hqa⟩

/-- Store folds preserve key distinctness. -/
theorem nodup_keys_store_fold (metas : List String)
    (response : String → PhaseStats) :
    ∀ (pairs : List (NodeInfo × InferenceRefs))
      (st0 : List (String × PhaseStats)),
      (st0.map Prod.fst).Nodup →
      ((store_fold metas response pairs st0).map Prod.fst).Nodup := by
  intro pairs
  induction pairs with
  | nil => intro st0 h; simpa [store_fold] using h
  | cons pr rest ih =>
    intro st0 h
    rw [store_fold, List.foldl_cons]
    have := ih (dict_update st0 pr.1.id
      (poll_value metas response pr.1.id pr.2))
      (nodup_keys_dict_update st0 pr.1.id _ h)
    rw [store_fold] at this
    exact this

/-- Membership in the matched pairs decomposes along the inference map. -/
theorem mem_mapped_pairs (grid : List NodeInfo)
    (inferences : List (String × InferenceRefs))
    (pr : NodeInfo × InferenceRefs) :
    pr ∈ mapped_pairs grid inferences ↔
      ∃ wi ∈ inferences, pr.1 ∈ grid ∧ pr.1.id = wi.1 ∧ pr.2 = wi.2 := by
  constructor
  · intro h
    rcases List.mem_flatMap.mp h with ⟨wi, hwi, hpr⟩
    rcases List.mem_map.mp hpr with ⟨record, hrec, heq⟩
    have hrec' := List.mem_filter.mp hrec
    refine ⟨wi, hwi, ?_, ?_, ?_⟩
    · rw [← heq]; exact hrec'.1
    · rw [← heq]; exact eq_of_beq hrec'.2
    · rw [← heq]
  · intro ⟨wi, hwi, hgrid, hid, hrefs⟩
    refine List.mem_flatMap.mpr ⟨wi, hwi, ?_⟩
    refine List.mem_map.mpr ⟨pr.1, List.mem_filter.mpr ⟨hgrid, ?_⟩, ?_⟩
    · exact beq_iff_eq.mpr hid
    · rw [← hrefs]

/-- Distinct keys identify entries of the inference map. -/
theorem eq_of_nodup_keys (inferences : List (String × InferenceRefs))
    (hnodup : (inferences.map Prod.fst).Nodup) :
    ∀ wi ∈ inferences, ∀ wi' ∈ inferences, wi.1 = wi'.1 → wi = wi' := by
  induction inferences with
  | nil => intro wi h; cases h
  | cons e rest ih =>
    rw [List.map_cons, List.nodup_cons] at hnodup
    intro wi hwi wi' hwi' hkey
    rcases List.mem_cons.mp hwi with h1 | h1 <;>
      rcases List.mem_cons.mp hwi' with h2 | h2
    · rw [h1, h2]
    · exfalso
      apply hnodup.1
      rw [← h1, hkey]
      exact List.mem_map_of_mem Prod.fst h2
    · exfalso
      apply hnodup.1
      rw [← h2, ← hkey]
      exact List.mem_map_of_mem Prod.fst h1
    · exact ih hnodup.2 wi h1 wi' h2 hkey

/-- Calls recorded by the poller come from a matched pair with references. -/
theorem call_mem_collect_events (metas : List String)
    (response : String → PhaseStats) (grid : List NodeInfo)
    (inferences : List (String × InferenceRefs)) (w : String)
    (h : PollEvent.call w ∈ (collect_all_stats metas response grid inferences).1) :
    ∃ pr ∈ mapped_pairs grid inferences, pr.1.id = w ∧ pr.2 ≠ [] := by
  rw [collect_all_stats, collect_fold_split, List.nil_append] at h
  rcases List.mem_flatMap.mp h with ⟨pr, hpr, hev⟩
  rw [poll_for_stats_eq] at hev
  by_cases hrefs : pr.2 = []
  · rw [if_pos hrefs] at hev
    simp at hev
  · rw [if_neg hrefs] at hev
    have heq := List.mem_singleton.mp hev
    injection heq with hid
    exact ⟨pr, hpr, hid.symm, hrefs⟩

/-- C5 counterexample: a worker referenced in the inference map that matches
no grid entry produces no matched pair, so the aggregate comes back empty
and holds no entry for that worker, refuting the claim that the aggregate
always contains exactly one entry per referenced participant. -/
theorem C5_counterexample :
    (collect_all_stats ["evaluate"] (fun _ => []) []
        [("worker_1", [])]).2 = [] ∧
    stats_lookup (collect_all_stats ["evaluate"] (fun _ => []) []
        [("worker_1", [])]).2 "worker_1" = none :=
  ⟨rfl, rfl⟩

/-- C5 (amended): whenever every worker id referenced in the inference map
matches at least one grid entry, the aggregate holds exactly one entry per
referenced participant, keyed and matched by worker id equality; a
participant with empty inference references receives the map sending every
requested phase to an empty statistics map, and no network call is issued
for it. -/
theorem C5_poller_completeness (metas : List String)
    (response : String → PhaseStats) (grid : List NodeInfo)
    (inferences : List (String × InferenceRefs))
    (hnodup : (inferences.map Prod.fst).Nodup)
    (hmatch : ∀ wi ∈ inferences, ∃ record ∈ grid, record.id = wi.1) :
    (((collect_all_stats metas response grid inferences).2.map Prod.fst).Nodup) ∧
    (∀ wi ∈ inferences,
      stats_lookup (collect_all_stats metas response grid inferences).2 wi.1 =
        some (poll_value metas response wi.1 wi.2)) ∧
    (∀ key ∈ (collect_all_stats metas response grid inferences).2.map Prod.fst,
      key ∈ inferences.map Prod.fst) ∧
    (∀ wi ∈ inferences, wi.2 = [] →
      stats_lookup (collect_all_stats metas response grid inferences).2 wi.1 =
        some (metas.map (fun meta => (meta, []))) ∧
      PollEvent.call wi.1 ∉
        (collect_all_stats metas response grid inferences).1) := by
  have hsplit : collect_all_stats metas response grid inferences =
      ((mapped_pairs grid inferences).flatMap
          (fun pr => (poll_for_stats metas response pr.1 pr.2).1),
        store_fold metas response (mapped_pairs grid inferences) []) := by
    rw [collect_all_stats, collect_fold_split, List.nil_append]
  have huni : ∀ wi ∈ inferences, ∀ pr ∈ mapped_pairs grid inferences,
      pr.1.id = wi.1 →
      poll_value metas response pr.1.id pr.2 =
        poll_value metas response wi.1 wi.2 := by
    intro wi hwi pr hpr hid
    rcases (mem_mapped_pairs grid inferences pr).mp hpr with
      ⟨wi', hwi', hgrid, hid', hrefs⟩
    have hww : wi' = wi :=
      eq_of_nodup_keys inferences hnodup wi' hwi' wi hwi (hid'.symm.trans hid)
    rw [hid, hrefs, hww]
  have hexists : ∀ wi ∈ inferences,
      ∃ pr ∈ mapped_pairs grid inferences, pr.1.id = wi.1 := by
    intro wi hwi
    rcases hmatch wi hwi with ⟨record, hrec, hid⟩
    exact ⟨(record, wi.2),
      (mem_mapped_pairs grid inferences (record, wi.2)).mpr
        ⟨wi, hwi, hrec, hid, rfl⟩, hid⟩
  have hlookup : ∀ wi ∈ inferences,
      stats_lookup (collect_all_stats metas response grid inferences).2 wi.1 =
        some (poll_value metas response wi.1 wi.2) := by
    intro wi hwi
    rw [hsplit]
    exact stats_lookup_store_fold_uniform metas response wi.1 _
      (mapped_pairs grid inferences) []
      (fun pr hpr hid => huni wi hwi pr hpr hid) (hexists wi hwi)
  refine ⟨?_, hlookup, ?_, ?_⟩
  · rw [hsplit]
    exact nodup_keys_store_fold metas response
      (mapped_pairs grid inferences) [] (by simp)
  · intro key hk
    rw [hsplit] at hk
    rcases mem_keys_store_fold metas response key
      (mapped_pairs grid inferences) [] hk with hm | ⟨pr, hpr, hid⟩
    · simp at hm
    · rcases (mem_mapped_pairs grid inferences pr).mp hpr with
        ⟨wi, hwi, _, hid', _⟩
      rw [← hid, hid']
      exact List.mem_map_of_mem Prod.fst hwi
  · intro wi hwi hrefs
    constructor
    · have := hlookup wi hwi
      rw [hrefs] at this
      simpa [poll_value] using this
    · intro hcall
      rcases call_mem_collect_events metas response grid inferences wi.1
        hcall with ⟨pr, hpr, hid, hne⟩
      rcases (mem_mapped_pairs grid inferences pr).mp hpr with
        ⟨wi', hwi', _, hid', hrefs'⟩
      have hww : wi' = wi :=
        eq_of_nodup_keys inferences hnodup wi' hwi' wi hwi
          (hid'.symm.trans hid)
      rw [hrefs', hww, hrefs] at hne
      exact hne rfl

/-- Grid used in the C5 witness scenario. -/
def c5Grid : List NodeInfo := [⟨"worker_1", "host_a"⟩, ⟨"worker_2", "host_b"⟩]

/-- Inference references of the C5 witness scenario: worker_1 has no
references for this cycle, worker_2 has one. -/
def c5Inferences : List (String × InferenceRefs) :=
  [("worker_1", []), ("worker_2", [7])]

/-- Worker response metadata of the C5 witness scenario. -/
def c5Response : String → PhaseStats := fun _ =>
  [("evaluate", [("accuracy", 1)]), ("train", [])]

/-- Witness for the amended C5 theorem at the concrete two-worker grid. -/
theorem C5_poller_completeness_witness :
    ((c5Inferences.map Prod.fst).Nodup) ∧
    (∀ wi ∈ c5Inferences, ∃ record ∈ c5Grid, record.id = wi.1) ∧
    ((((collect_all_stats ["evaluate"] c5Response c5Grid c5Inferences).2.map
        Prod.fst).Nodup) ∧
    (∀ wi ∈ c5Inferences,
      stats_lookup (collect_all_stats ["evaluate"] c5Response c5Grid
          c5Inferences).2 wi.1 =
        some (poll_value ["evaluate"] c5Response wi.1 wi.2)) ∧
    (∀ key ∈ (collect_all_stats ["evaluate"] c5Response c5Grid
        c5Inferences).2.map Prod.fst,
      key ∈ c5Inferences.map Prod.fst) ∧
    (∀ wi ∈ c5Inferences, wi.2 = [] →
      stats_lookup (collect_all_stats ["evaluate"] c5Response c5Grid
          c5Inferences).2 wi.1 =
        some (["evaluate"].map (fun meta => (meta, []))) ∧
      PollEvent.call wi.1 ∉
        (collect_all_stats ["evaluate"] c5Response c5Grid c5Inferences).1)) :=
  ⟨by decide, by decide,
    C5_poller_completeness ["evaluate"] c5Response c5Grid c5Inferences
      (by decide) (by decide)⟩

end SynergosRest
